import Mathlib

/- Shallow embedding of the pycose COSE_Encrypt orchestrator
   (cose/messages/encmessage.py).  Byte strings are lists of naturals.
   External collaborators of the orchestrator that belong to the repository
   but are outside src (the recipient subsystem, the common encryption base,
   the header container, the key classes and the random source) are modelled
   from the spec; their operations are gathered in the Env structure or in
   defs whose doc comment says so. -/

abbrev Bytes := List Nat

-- Header maps, label to value.  Label 1 is the Algorithm header parameter.
abbrev HdrMap := List (Nat × Int)

-- The four key-management variants of the recipient subsystem.
inductive RVariant
  | DirectEncryption
  | DirectKeyAgreement
  | KeyWrap
  | KeyAgreementWithKeyWrap
deriving DecidableEq, Repr

/-- Modelled from the spec: a Recipient of the recipient subsystem.  rid is
the object identity used by the membership lookup, variant the
key-management class of the object, payload the wrapped-key carrier bytes,
wrapped the output of the recipient wrap (encrypt) step. -/
structure Recipient where
  rid : Nat
  variant : RVariant
  payload : Bytes
  wrapped : Option Bytes := none
deriving DecidableEq, Repr

/-- Modelled from the spec: a SymmetricKey object made of raw key bytes plus
the optional params KpAlg and KpKeyOps.  The EncryptOp key operation is
represented by the constant 3. -/
structure SymmetricKey where
  k : Bytes
  kpAlg : Option Int
  kpKeyOps : List Nat
deriving DecidableEq, Repr

-- The Envelope.  The underscore field _recipients of the source is the
-- recipients field here; phdr and uhdr are the two header maps, key the
-- resolved CEK (absent until established).
structure EncMessage where
  phdr : HdrMap
  uhdr : HdrMap
  payload : Bytes
  external_aad : Bytes
  key : Option SymmetricKey
  recipients : List Recipient
deriving DecidableEq, Repr

-- Wire items of the CBOR-level array.  The byte serialization of the
-- protected header is abstracted: the header map itself stands in that
-- position.
inductive Wire
  | bstr (bs : Bytes)
  | hmap (m : HdrMap)
  | arr (ws : List Wire)
  | tagged (t : Nat) (w : Wire)
  | other (n : Nat)

-- The two mode strings passed to compute_cek.
inductive CekMode
  | encryptMode
  | decryptMode
deriving DecidableEq, Repr

-- Error kinds of the Python layer, by exception class.
inductive PyErr
  | typeError
  | indexError
  | valueError
  | attributeError
  | coseUnsupportedRecipientClass
  | coseRecipientNotFound
  | coseNoKey
  | coseAuthFailure
  | otherError (code : Nat)
deriving DecidableEq, Repr

/-- Modelled from the spec: the external collaborators consumed by the
orchestrator.  randByte is the cryptographically secure byte stream behind
os.urandom, keyLength the get_key_length method of the negotiated algorithm,
computeCek the key agreement or unwrap function of a recipient, wrapKey the
wrap performed by the recipient own encrypt step, aeadSeal and aeadOpen the
seal and open of the common encryption base over the envelope state,
encodeRecipient the recipient own encode parameterized by the target
algorithm, createRecipient the external recipient factory. -/
structure Env where
  randByte : Nat → Nat
  keyLength : Int → Nat
  computeCek : Recipient → Option Int → CekMode → SymmetricKey
  wrapKey : Recipient → Int → Bytes
  aeadSeal : SymmetricKey → EncMessage → Bytes
  aeadOpen : SymmetricKey → EncMessage → Except PyErr Bytes
  encodeRecipient : Recipient → Option Int → Wire
  createRecipient : Wire → Except PyErr Recipient

-- os.urandom(n): n fresh random bytes drawn from the secure stream.
def urandomBytes (env : Env) (n : Nat) : Bytes :=
  (List.range n).map env.randByte

/-- Modelled from the spec: HeaderContainer.get_attr, lookup of a header
parameter in the protected header first, then in the unprotected one. -/
def get_attr (m : EncMessage) (label : Nat) : Option Int :=
  match List.lookup label m.phdr with
  | some v => some v
  | none => List.lookup label m.uhdr

/-- Modelled from the spec: CoseRecipient.verify_recipients, the classify
function of the recipient subsystem.  It returns the single uniform variant
of the attached recipients and signals a mixed or empty set as an error of
the Unsupported Recipient Class kind. -/
def verify_recipients (rs : List Recipient) : Except PyErr RVariant :=
  match rs with
  | [] => Except.error PyErr.coseUnsupportedRecipientClass
  | r :: rest =>
      if rest.all (fun s => decide (s.variant = r.variant)) then
        Except.ok r.variant
      else
        Except.error PyErr.coseUnsupportedRecipientClass

/-- Modelled from the spec: CoseRecipient.has_recipient, the identity lookup
that checks membership of a recipient object in a recipient list. -/
def has_recipient (target : Recipient) (rs : List Recipient) : Bool :=
  rs.any (fun r => r.rid == target.rid)

-- One recipient wrap step: r.encrypt(target_algorithm) asks the recipient
-- to wrap its now-settled carrier payload against the negotiated algorithm.
def wrapStep (env : Env) (a : Int) (r : Recipient) : Recipient :=
  { r with wrapped := some (env.wrapKey r a) }

-- The key fan-out loop of EncMessage.encrypt over the recipient list: an
-- empty carrier payload receives the current key bytes, a non-empty one
-- overrides them for the remainder of the pass; each recipient then wraps
-- the settled material.  Returns the mutated recipients and the final
-- settled key bytes.
def fanout (env : Env) (a : Int) : List Recipient → Bytes → List Recipient × Bytes
  | [], kb => ([], kb)
  | r :: rest, kb =>
      let settled := if r.payload = [] then kb else r.payload
      (wrapStep env a { r with payload := settled } :: (fanout env a rest settled).1,
       (fanout env a rest settled).2)

-- Closed-form description of the settled key bytes after a left-to-right
-- pass: the last non-empty original carrier payload wins, else the start
-- value.  Used to state the fan-out theorems.
def settleFold (kb : Bytes) (rs : List Recipient) : Bytes :=
  List.foldl (fun b r => if r.payload = [] then b else r.payload) kb rs

/-- Modelled from the spec: the seal direction of the common encryption base
(super().encrypt()).  The resolved CEK must be set; the AEAD seal then runs
over the envelope state. -/
def superEncrypt (env : Env) (m : EncMessage) : Except PyErr Bytes :=
  match m.key with
  | none => Except.error PyErr.coseNoKey
  | some kk => Except.ok (env.aeadSeal kk m)

/-- Modelled from the spec: the open direction of the common encryption base
(super().decrypt()); it may fail with an authentication failure, which is
propagated unchanged. -/
def superDecrypt (env : Env) (m : EncMessage) : Except PyErr Bytes :=
  match m.key with
  | none => Except.error PyErr.coseNoKey
  | some kk => env.aeadOpen kk m

-- EncMessage.encrypt.  Errors carry the envelope state at the raise point,
-- successes the produced ciphertext and the final state.  The final else
-- branch of the source (raise Unsupported COSE recipient class) is reached
-- exactly when classification does not yield a variant, which the spec
-- model of verify_recipients signals as the same error kind.
def EncMessage.encrypt (env : Env) (m : EncMessage) :
    Except (PyErr × EncMessage) (Bytes × EncMessage) :=
  match verify_recipients m.recipients with
  | Except.error e => Except.error (e, m)
  | Except.ok RVariant.DirectEncryption =>
      match superEncrypt env m with
      | Except.error e => Except.error (e, m)
      | Except.ok ct => Except.ok (ct, m)
  | Except.ok RVariant.DirectKeyAgreement =>
      match m.recipients with
      | [] => Except.error (PyErr.indexError, m)
      | r0 :: _ =>
          let m1 := { m with key := some (env.computeCek r0 (get_attr m 1) CekMode.encryptMode) }
          match superEncrypt env m1 with
          | Except.error e => Except.error (e, m1)
          | Except.ok ct => Except.ok (ct, m1)
  | Except.ok _ =>
      match get_attr m 1 with
      | none => Except.error (PyErr.attributeError, m)
      | some a =>
          let kb0 := urandomBytes env (env.keyLength a)
          let p := fanout env a m.recipients kb0
          let m1 := { m with recipients := p.1,
                             key := some (SymmetricKey.mk p.2 (some a) [3]) }
          match superEncrypt env m1 with
          | Except.error e => Except.error (e, m1)
          | Except.ok ct => Except.ok (ct, m1)

-- EncMessage.decrypt.  The membership check runs before classification and
-- before any CEK derivation.
def EncMessage.decrypt (env : Env) (m : EncMessage) (recipient : Recipient) :
    Except (PyErr × EncMessage) (Bytes × EncMessage) :=
  if has_recipient recipient m.recipients then
    match verify_recipients m.recipients with
    | Except.error e => Except.error (e, m)
    | Except.ok RVariant.DirectEncryption =>
        match superDecrypt env m with
        | Except.error e => Except.error (e, m)
        | Except.ok pt => Except.ok (pt, m)
    | Except.ok _ =>
        let m1 := { m with key := some (env.computeCek recipient (get_attr m 1) CekMode.decryptMode) }
        match superDecrypt env m1 with
        | Except.error e => Except.error (e, m1)
        | Except.ok pt => Except.ok (pt, m1)
  else
    Except.error (PyErr.coseRecipientNotFound, m)

-- Elements handed to the recipients property setter: either an object of a
-- CoseRecipient subclass or an object of some other type.
inductive SetterItem
  | recipient (r : Recipient)
  | notRecipient (t : Nat)
deriving DecidableEq, Repr

-- The loop of the recipients property setter: each validated element is
-- appended to the current stored list; the first element that is not a
-- recognized Recipient raises a TypeError, leaving the already appended
-- elements in place.
def recipients_loop : List Recipient → List SetterItem →
    Except (PyErr × List Recipient) (List Recipient)
  | cur, [] => Except.ok cur
  | cur, SetterItem.recipient r :: rest => recipients_loop (cur ++ [r]) rest
  | cur, SetterItem.notRecipient _ :: _ => Except.error (PyErr.typeError, cur)

-- The recipients property setter at envelope level: None resets the stored
-- list to empty, a list runs the append-and-validate loop.  Errors carry the
-- envelope state at the raise point.
def set_recipients (m : EncMessage) (arg : Option (List SetterItem)) :
    Except (PyErr × EncMessage) EncMessage :=
  match arg with
  | none => Except.ok { m with recipients := [] }
  | some items =>
      match recipients_loop m.recipients items with
      | Except.ok rs => Except.ok { m with recipients := rs }
      | Except.error (e, rs) => Except.error (e, { m with recipients := rs })

-- EncMessage.__init__: the stored recipient list starts empty, then the
-- recipients argument goes through the property setter.
def mkEncMessage (ph uh : HdrMap) (pl ead : Bytes) (k : Option SymmetricKey)
    (arg : Option (List SetterItem)) : Except (PyErr × EncMessage) EncMessage :=
  set_recipients (EncMessage.mk ph uh pl ead k []) arg

-- The list comprehension of from_cose_obj: reconstruct every element of the
-- popped recipients array through the external factory.
def mapCreate (env : Env) : List Wire → Except PyErr (List Recipient)
  | [] => Except.ok []
  | w :: ws =>
      match env.createRecipient w with
      | Except.error e => Except.error e
      | Except.ok r =>
          match mapCreate env ws with
          | Except.error e => Except.error e
          | Except.ok rs => Except.ok (r :: rs)

-- EncMessage.from_cose_obj.  The generic container parse consumes the first
-- three elements (propagating a failure when fewer exist); the try block
-- around the recipient reconstruction catches exactly IndexError and
-- ValueError, setting the recipient list to empty in that case.  A fourth
-- element that is not an array makes the iteration raise outside the caught
-- kinds.
def from_cose_obj (env : Env) (coseObj : List Wire) : Except PyErr EncMessage :=
  match coseObj with
  | Wire.hmap ph :: Wire.hmap uh :: Wire.bstr pl :: rest =>
      let msg : EncMessage := EncMessage.mk ph uh pl [] none []
      match rest with
      | [] => Except.ok msg
      | w :: _ =>
          match w with
          | Wire.arr ws =>
              match mapCreate env ws with
              | Except.ok rs => Except.ok { msg with recipients := rs }
              | Except.error e =>
                  if e = PyErr.valueError ∨ e = PyErr.indexError then
                    Except.ok msg
                  else
                    Except.error e
          | _ => Except.error PyErr.typeError
  | _ => Except.error PyErr.indexError

-- The array built by EncMessage.encode before the generic wrapping: base
-- three elements, plus the encoded recipients when the list is non-empty.
def encodeBody (env : Env) (m : EncMessage) (enc : Bool) :
    Except (PyErr × EncMessage) (List Wire × EncMessage) :=
  match (if enc then EncMessage.encrypt env m else Except.ok (m.payload, m)) with
  | Except.error e => Except.error e
  | Except.ok (ct, m1) =>
      let base := [Wire.hmap m1.phdr, Wire.hmap m1.uhdr, Wire.bstr ct]
      if m1.recipients.length ≠ 0 then
        Except.ok (base ++ [Wire.arr (m1.recipients.map
          (fun r => env.encodeRecipient r (get_attr m1 1)))], m1)
      else
        Except.ok (base, m1)

/-- Modelled from the spec: the generic message wrapping of the base encode,
optional CBOR tag 96 around the array. -/
def baseEncode (tag : Bool) (message : List Wire) : Wire :=
  if tag then Wire.tagged 96 (Wire.arr message) else Wire.arr message

-- EncMessage.encode: build the array, then wrap it.
def EncMessage.encode (env : Env) (m : EncMessage) (tag enc : Bool) :
    Except (PyErr × EncMessage) (Wire × EncMessage) :=
  match encodeBody env m enc with
  | Except.error e => Except.error e
  | Except.ok (l, m1) => Except.ok (baseEncode tag l, m1)

-- Concrete environment and inputs used by witnesses and counterexamples.

def testEnv : Env where
  randByte := fun _ => 7
  keyLength := fun _ => 2
  computeCek := fun r a _ => SymmetricKey.mk (r.payload ++ [0]) a [3]
  wrapKey := fun r _ => 9 :: r.payload
  aeadSeal := fun kk m => kk.k ++ m.payload
  aeadOpen := fun _ m => Except.ok m.payload
  encodeRecipient := fun r _ => Wire.bstr r.payload
  createRecipient := fun w =>
    match w with
    | Wire.bstr bs => Except.ok (Recipient.mk 0 RVariant.KeyWrap bs none)
    | _ => Except.error PyErr.valueError

-- A variant of testEnv whose recipient factory fails with an error kind
-- outside the caught IndexError and ValueError classes.
def testEnvP : Env :=
  { testEnv with createRecipient := fun _ => Except.error (PyErr.otherError 1) }

-- A variant of testEnv whose AEAD open fails with an authentication
-- failure.
def testEnvF : Env :=
  { testEnv with aeadOpen := fun _ _ => Except.error PyErr.coseAuthFailure }

def rKW1 : Recipient := Recipient.mk 1 RVariant.KeyWrap [] none
def rKW2 : Recipient := Recipient.mk 2 RVariant.KeyWrap [4, 4] none
def rKW3 : Recipient := Recipient.mk 3 RVariant.KeyWrap [] none
def rDE : Recipient := Recipient.mk 4 RVariant.DirectEncryption [] none
def rDKA : Recipient := Recipient.mk 5 RVariant.DirectKeyAgreement [] none

def c1msg : EncMessage := EncMessage.mk [(1, 1)] [] [10] [] none [rKW1, rKW2, rKW3]

def c1state : EncMessage :=
  EncMessage.mk [(1, 1)] [] [10] [] (some (SymmetricKey.mk [4, 4] (some 1) [3]))
    [Recipient.mk 1 RVariant.KeyWrap [7, 7] (some [9, 7, 7]),
     Recipient.mk 2 RVariant.KeyWrap [4, 4] (some [9, 4, 4]),
     Recipient.mk 3 RVariant.KeyWrap [4, 4] (some [9, 4, 4])]

def c1ct : Bytes := [4, 4, 10]

def c2state : EncMessage := EncMessage.mk [] [] [] [] none [rKW1]

def c3msg : EncMessage := EncMessage.mk [(1, 1)] [] [] [] none [rDE, rKW1]

def c4msg : EncMessage := EncMessage.mk [(1, 1)] [] [] [] none [rKW1]

def c5msg : EncMessage := EncMessage.mk [(1, 1)] [] [10] [] none [rKW1]

def c5state : EncMessage :=
  EncMessage.mk [(1, 1)] [] [10] [] (some (SymmetricKey.mk [7, 7] (some 1) [3]))
    [Recipient.mk 1 RVariant.KeyWrap [7, 7] (some [9, 7, 7])]

def c5ct : Bytes := [7, 7, 10]

def c5dmsg : EncMessage := EncMessage.mk [(1, 1)] [] [20] [] none [rKW1]

def c5emsg : EncMessage := EncMessage.mk [] [] [] [] none []

def c5dstate : EncMessage :=
  EncMessage.mk [(1, 1)] [] [20] [] (some (SymmetricKey.mk [0] (some 1) [3])) [rKW1]

def c8msg : EncMessage := EncMessage.mk [(1, 1)] [] [9] [] none [rKW2]

def c8list : List Wire :=
  [Wire.hmap [(1, 1)], Wire.hmap [], Wire.bstr [9], Wire.arr [Wire.bstr [4, 4]]]

def c9msg : EncMessage := EncMessage.mk [(1, 1)] [] [8] [] none [rDKA]

def c9state : EncMessage :=
  EncMessage.mk [(1, 1)] [] [8] [] (some (SymmetricKey.mk [0] (some 1) [3])) [rDKA]

def c9ct : Bytes := [0, 8]

-- Helper lemmas.

theorem urandomBytes_length (env : Env) (n : Nat) : (urandomBytes env n).length = n := by
  simp [urandomBytes]

theorem settleFold_cons (kb : Bytes) (r : Recipient) (rest : List Recipient) :
    settleFold kb (r :: rest) = settleFold (if r.payload = [] then kb else r.payload) rest := rfl

theorem fanout_snd (env : Env) (a : Int) :
    ∀ (rs : List Recipient) (kb : Bytes), (fanout env a rs kb).2 = settleFold kb rs
  | [], _ => rfl
  | r :: rest, kb => by
      simp only [fanout, settleFold_cons]
      exact fanout_snd env a rest _

theorem fanout_length (env : Env) (a : Int) :
    ∀ (rs : List Recipient) (kb : Bytes), (fanout env a rs kb).1.length = rs.length
  | [], _ => rfl
  | r :: rest, kb => by
      simp only [fanout, List.length_cons]
      rw [fanout_length env a rest _]

theorem fanout_get (env : Env) (a : Int) :
    ∀ (rs : List Recipient) (kb : Bytes) (i : Nat) (r : Recipient),
      rs[i]? = some r →
      (fanout env a rs kb).1[i]? =
        some (wrapStep env a { r with payload := settleFold kb (rs.take (i + 1)) })
  | [], _, i, r => by
      intro h
      simp at h
  | r0 :: rest, kb, 0, r => by
      intro h
      simp only [List.getElem?_cons_zero, Option.some.injEq] at h
      subst h
      simp only [fanout, List.getElem?_cons_zero, Option.some.injEq]
      rfl
  | r0 :: rest, kb, i + 1, r => by
      intro h
      simp only [List.getElem?_cons_succ] at h
      simp only [fanout, List.getElem?_cons_succ]
      rw [List.take_succ_cons, settleFold_cons]
      exact fanout_get env a rest _ i r h

theorem verify_recipients_ok_mem (rs : List Recipient) (v : RVariant)
    (h : verify_recipients rs = Except.ok v) : ∀ r ∈ rs, r.variant = v := by
  cases rs with
  | nil => simp [verify_recipients] at h
  | cons r0 rest =>
      simp only [verify_recipients] at h
      split at h
      · rename_i hall
        injection h with h
        subst h
        intro r hr
        rcases List.mem_cons.mp hr with hr | hr
        · rw [hr]
        · exact of_decide_eq_true (List.all_eq_true.mp hall r hr)
      · exact absurd h (by simp)

theorem verify_recipients_error_kind (rs : List Recipient) (e : PyErr)
    (h : verify_recipients rs = Except.error e) : e = PyErr.coseUnsupportedRecipientClass := by
  cases rs with
  | nil =>
      simp only [verify_recipients, Except.error.injEq] at h
      exact h.symm
  | cons r0 rest =>
      simp only [verify_recipients] at h
      split at h
      · exact absurd h (by simp)
      · injection h with h
        exact h.symm

theorem verify_recipients_mixed (rs : List Recipient) (r1 r2 : Recipient)
    (h1 : r1 ∈ rs) (h2 : r2 ∈ rs) (hne : r1.variant ≠ r2.variant) :
    verify_recipients rs = Except.error PyErr.coseUnsupportedRecipientClass := by
  cases hv : verify_recipients rs with
  | error e => rw [verify_recipients_error_kind rs e hv]
  | ok v =>
      have hm := verify_recipients_ok_mem rs v hv
      exact absurd ((hm r1 h1).trans (hm r2 h2).symm) hne

theorem mapCreate_length (env : Env) :
    ∀ (ws : List Wire) (rs : List Recipient),
      mapCreate env ws = Except.ok rs → rs.length = ws.length
  | [], rs => by
      intro h
      simp only [mapCreate, Except.ok.injEq] at h
      subst h
      rfl
  | w :: ws, rs => by
      intro h
      simp only [mapCreate] at h
      cases hc : env.createRecipient w with
      | error e => rw [hc] at h; exact absurd h (by simp)
      | ok r =>
          rw [hc] at h
          cases hm : mapCreate env ws with
          | error e => rw [hm] at h; exact absurd h (by simp)
          | ok rs0 =>
              rw [hm] at h
              injection h with h
              subst h
              simp only [List.length_cons]
              rw [mapCreate_length env ws rs0 hm]

theorem recipients_loop_ok :
    ∀ (R2 : List Recipient) (cur : List Recipient),
      recipients_loop cur (R2.map SetterItem.recipient) = Except.ok (cur ++ R2)
  | [], cur => by simp [recipients_loop]
  | r :: rest, cur => by
      simp only [List.map_cons, recipients_loop]
      rw [recipients_loop_ok rest (cur ++ [r])]
      simp

theorem recipients_loop_err :
    ∀ (pre : List Recipient) (cur : List Recipient) (t : Nat) (rest : List SetterItem),
      recipients_loop cur (pre.map SetterItem.recipient ++ SetterItem.notRecipient t :: rest) =
        Except.error (PyErr.typeError, cur ++ pre)
  | [], cur, t, rest => by simp [recipients_loop]
  | r :: pre, cur, t, rest => by
      simp only [List.map_cons, List.cons_append, recipients_loop, List.append_eq]
      rw [recipients_loop_err pre (cur ++ [r]) t rest]
      simp

-- Branch evaluation lemmas for encrypt and decrypt.

theorem encrypt_kw_eq (env : Env) (m : EncMessage) (v : RVariant) (a : Int)
    (hv : verify_recipients m.recipients = Except.ok v)
    (hkw : v = RVariant.KeyWrap ∨ v = RVariant.KeyAgreementWithKeyWrap)
    (ha : get_attr m 1 = some a) :
    EncMessage.encrypt env m =
      Except.ok
        (env.aeadSeal
          (SymmetricKey.mk
            (fanout env a m.recipients (urandomBytes env (env.keyLength a))).2 (some a) [3])
          { m with
              recipients := (fanout env a m.recipients (urandomBytes env (env.keyLength a))).1,
              key := some (SymmetricKey.mk
                (fanout env a m.recipients (urandomBytes env (env.keyLength a))).2 (some a) [3]) },
         { m with
             recipients := (fanout env a m.recipients (urandomBytes env (env.keyLength a))).1,
             key := some (SymmetricKey.mk
               (fanout env a m.recipients (urandomBytes env (env.keyLength a))).2 (some a) [3]) }) := by
  unfold EncMessage.encrypt
  rw [hv, ha]
  rcases hkw with h | h <;> subst h <;> simp [superEncrypt]

theorem encrypt_dka_eq (env : Env) (m : EncMessage) (r0 : Recipient) (tl : List Recipient)
    (hv : verify_recipients m.recipients = Except.ok RVariant.DirectKeyAgreement)
    (hrs : m.recipients = r0 :: tl) :
    EncMessage.encrypt env m =
      Except.ok
        (env.aeadSeal (env.computeCek r0 (get_attr m 1) CekMode.encryptMode)
          { m with key := some (env.computeCek r0 (get_attr m 1) CekMode.encryptMode) },
         { m with key := some (env.computeCek r0 (get_attr m 1) CekMode.encryptMode) }) := by
  unfold EncMessage.encrypt
  rw [hv, hrs]
  simp [superEncrypt]

theorem decrypt_nonDE_eq (env : Env) (m : EncMessage) (r : Recipient) (v : RVariant)
    (hmem : has_recipient r m.recipients = true)
    (hv : verify_recipients m.recipients = Except.ok v)
    (hne : v ≠ RVariant.DirectEncryption) :
    EncMessage.decrypt env m r =
      (match env.aeadOpen (env.computeCek r (get_attr m 1) CekMode.decryptMode)
          { m with key := some (env.computeCek r (get_attr m 1) CekMode.decryptMode) } with
       | Except.error e =>
           Except.error (e,
             { m with key := some (env.computeCek r (get_attr m 1) CekMode.decryptMode) })
       | Except.ok pt =>
           Except.ok (pt,
             { m with key := some (env.computeCek r (get_attr m 1) CekMode.decryptMode) })) := by
  unfold EncMessage.decrypt
  rw [hmem, hv]
  cases v with
  | DirectEncryption => exact absurd rfl hne
  | DirectKeyAgreement => simp [superDecrypt]
  | KeyWrap => simp [superDecrypt]
  | KeyAgreementWithKeyWrap => simp [superDecrypt]

-- Claim theorems.

/-- Claim C2 (corrected): assigning a recipient list to an envelope fails
with a type error on the first element that is not a recognized Recipient,
but the elements before the failing one have already been appended, so the
stored recipient list becomes the previous list extended by the valid prefix
rather than staying unchanged. -/
theorem claim_C2 (m : EncMessage) (pre : List Recipient) (t : Nat)
    (rest : List SetterItem) :
    set_recipients m
        (some (pre.map SetterItem.recipient ++ SetterItem.notRecipient t :: rest)) =
      Except.error (PyErr.typeError, { m with recipients := m.recipients ++ pre }) := by
  simp [set_recipients, recipients_loop_err]

/-- Witness for the corrected claim C2 at a concrete envelope and list. -/
theorem claim_C2_witness :
    set_recipients c4msg (some [SetterItem.recipient rKW2, SetterItem.notRecipient 3]) =
      Except.error (PyErr.typeError, { c4msg with recipients := c4msg.recipients ++ [rKW2] }) :=
  claim_C2 c4msg [rKW2] 3 []

/-- Counterexample to claim C2 as stated: assigning one valid recipient
followed by a non-recipient to an envelope whose stored list is empty raises
the type error yet retains the valid prefix, so the stored list is changed
by the failed assignment. -/
theorem claim_C2_counterexample :
    set_recipients (EncMessage.mk [] [] [] [] none [])
        (some [SetterItem.recipient rKW1, SetterItem.notRecipient 0]) =
      Except.error (PyErr.typeError, c2state) ∧
    c2state.recipients ≠ (EncMessage.mk [] [] [] [] none [] : EncMessage).recipients :=
  ⟨rfl, by simp [c2state]⟩

/-- Claim C3: an envelope whose recipient list holds both a DirectEncryption
recipient and a KeyWrap recipient makes encrypt fail with the Unsupported
Recipient Class error, leaving the envelope unchanged and producing no
ciphertext. -/
theorem claim_C3 (env : Env) (m : EncMessage) (r1 r2 : Recipient)
    (h1 : r1 ∈ m.recipients) (hv1 : r1.variant = RVariant.DirectEncryption)
    (h2 : r2 ∈ m.recipients) (hv2 : r2.variant = RVariant.KeyWrap) :
    EncMessage.encrypt env m =
      Except.error (PyErr.coseUnsupportedRecipientClass, m) := by
  have hmix := verify_recipients_mixed m.recipients r1 r2 h1 h2 (by simp [hv1, hv2])
  unfold EncMessage.encrypt
  rw [hmix]

/-- Witness for claim C3 at a concrete mixed-variant envelope. -/
theorem claim_C3_witness :
    EncMessage.encrypt testEnv c3msg =
      Except.error (PyErr.coseUnsupportedRecipientClass, c3msg) :=
  claim_C3 testEnv c3msg rDE rKW1 (by simp [c3msg]) rfl (by simp [c3msg]) rfl

/-- Claim C4: decrypt with a recipient that is not a member of the envelope
recipient list fails with the recipient-not-found error before any CEK
derivation or AEAD open step runs; the envelope state carried by the error,
its key included, is unchanged, and the outcome holds for every environment
of external functions. -/
theorem claim_C4 (env : Env) (m : EncMessage) (r : Recipient)
    (h : has_recipient r m.recipients = false) :
    EncMessage.decrypt env m r = Except.error (PyErr.coseRecipientNotFound, m) := by
  simp [EncMessage.decrypt, h]

/-- Witness for claim C4 at a concrete envelope and foreign recipient. -/
theorem claim_C4_witness :
    EncMessage.decrypt testEnv c4msg rKW2 =
      Except.error (PyErr.coseRecipientNotFound, c4msg) :=
  claim_C4 testEnv c4msg rKW2 rfl

/-- Claim C6: decoding a wire structure whose fourth (recipients) array
element is absent, so that popping it fails on the exhausted array, yields a
message whose recipient list is empty, and no error is raised. -/
theorem claim_C6 (env : Env) (ph uh : HdrMap) (pl : Bytes) :
    from_cose_obj env [Wire.hmap ph, Wire.hmap uh, Wire.bstr pl] =
      Except.ok (EncMessage.mk ph uh pl [] none []) := rfl

/-- Witness for claim C6 at a concrete three-element wire structure. -/
theorem claim_C6_witness :
    from_cose_obj testEnv [Wire.hmap [(1, 1)], Wire.hmap [], Wire.bstr [2]] =
      Except.ok (EncMessage.mk [(1, 1)] [] [2] [] none []) :=
  claim_C6 testEnv [(1, 1)] [] [2]

/-- Claim C10: the recipients setter appends the validated elements to the
existing stored list, so assigning R2 to an envelope holding R1 stores
R1 ++ R2; assigning None resets the stored list to empty; and construction
with a recipients argument stores exactly that list because the stored list
starts empty. -/
theorem claim_C10 (m : EncMessage) (R2 : List Recipient) (ph uh : HdrMap)
    (pl ead : Bytes) (k : Option SymmetricKey) :
    set_recipients m (some (R2.map SetterItem.recipient)) =
      Except.ok { m with recipients := m.recipients ++ R2 } ∧
    set_recipients m none = Except.ok { m with recipients := [] } ∧
    mkEncMessage ph uh pl ead k (some (R2.map SetterItem.recipient)) =
      Except.ok (EncMessage.mk ph uh pl ead k R2) := by
  refine ⟨?_, rfl, ?_⟩
  · simp [set_recipients, recipients_loop_ok]
  · simp [mkEncMessage, set_recipients, recipients_loop_ok]

/-- Witness for claim C10 at a concrete envelope already holding one
recipient. -/
theorem claim_C10_witness :
    set_recipients c2state (some [SetterItem.recipient rKW2]) =
      Except.ok { c2state with recipients := c2state.recipients ++ [rKW2] } :=
  (claim_C10 c2state [rKW2] [] [] [] [] none).1

/-- Claim C1: for an envelope classified KeyWrap or KeyAgreementWithKeyWrap,
encrypt draws one fresh random key whose length is the key length of the
negotiated algorithm and makes a single left-to-right pass over the
recipient list: the settled carrier payload of the recipient at index i is
the assign-or-override fold over the prefix up to i (an empty carrier
receives the current key bytes, a non-empty one overrides them for the rest
of the pass), each recipient then wraps its settled material, and the final
settled bytes become the envelope CEK, the key handed to the AEAD seal that
produces the ciphertext. -/
theorem claim_C1 (env : Env) (m : EncMessage) (a : Int) (v : RVariant)
    (ct : Bytes) (m2 : EncMessage)
    (hv : verify_recipients m.recipients = Except.ok v)
    (hkw : v = RVariant.KeyWrap ∨ v = RVariant.KeyAgreementWithKeyWrap)
    (ha : get_attr m 1 = some a)
    (hrun : EncMessage.encrypt env m = Except.ok (ct, m2)) :
    (urandomBytes env (env.keyLength a)).length = env.keyLength a ∧
    m2.key = some (SymmetricKey.mk
      (settleFold (urandomBytes env (env.keyLength a)) m.recipients) (some a) [3]) ∧
    ct = env.aeadSeal (SymmetricKey.mk
      (settleFold (urandomBytes env (env.keyLength a)) m.recipients) (some a) [3]) m2 ∧
    m2.recipients.length = m.recipients.length ∧
    (∀ (i : Nat) (r : Recipient), m.recipients[i]? = some r →
       m2.recipients[i]? = some (wrapStep env a
         { r with payload := (settleFold (urandomBytes env (env.keyLength a))
             (m.recipients.take (i + 1))) })) := by
  rw [encrypt_kw_eq env m v a hv hkw ha] at hrun
  simp only [Except.ok.injEq, Prod.mk.injEq] at hrun
  obtain ⟨hct, hm2⟩ := hrun
  subst hct
  subst hm2
  refine ⟨urandomBytes_length env _, ?_, ?_, ?_, ?_⟩
  · simp [fanout_snd]
  · rw [fanout_snd]
  · simp [fanout_length]
  · intro i r hir
    simpa using fanout_get env a m.recipients (urandomBytes env (env.keyLength a)) i r hir

/-- Witness for claim C1 at a concrete envelope with three KeyWrap
recipients, the middle one carrying a pre-populated payload that overrides
the generated key for the rest of the pass. -/
theorem claim_C1_witness :
    c1state.key = some (SymmetricKey.mk
      (settleFold (urandomBytes testEnv (Env.keyLength testEnv 1)) c1msg.recipients)
      (some 1) [3]) ∧
    c1state.recipients.length = c1msg.recipients.length :=
  ⟨(claim_C1 testEnv c1msg 1 RVariant.KeyWrap c1ct c1state rfl (Or.inl rfl) rfl rfl).2.1,
   (claim_C1 testEnv c1msg 1 RVariant.KeyWrap c1ct c1state rfl (Or.inl rfl) rfl rfl).2.2.2.1⟩

/-- Counterexample to claim C5 as stated: a successful KeyWrap encrypt exits
with the established CEK still stored on the envelope key attribute, so key
material does remain on the envelope after the call returns. -/
theorem claim_C5_counterexample :
    EncMessage.encrypt testEnv c5msg = Except.ok (c5ct, c5state) ∧
    c5state.key ≠ none :=
  ⟨rfl, by simp [c5state]⟩

/-- Established-CEK identification for every successful non-DirectEncryption
encrypt: DirectKeyAgreement stores the compute_cek of the head recipient,
KeyWrap and KeyAgreementWithKeyWrap store the settled fan-out key under the
negotiated algorithm. -/
theorem encrypt_ok_key (env : Env) (m : EncMessage) (v : RVariant) (ct : Bytes)
    (m2 : EncMessage)
    (hv : verify_recipients m.recipients = Except.ok v)
    (hne : v ≠ RVariant.DirectEncryption)
    (hrun : EncMessage.encrypt env m = Except.ok (ct, m2)) :
    (v = RVariant.DirectKeyAgreement →
       ∃ r0 tl, m.recipients = r0 :: tl ∧
         m2.key = some (env.computeCek r0 (get_attr m 1) CekMode.encryptMode)) ∧
    (v = RVariant.KeyWrap ∨ v = RVariant.KeyAgreementWithKeyWrap →
       ∃ a, get_attr m 1 = some a ∧
         m2.key = some (SymmetricKey.mk
           (settleFold (urandomBytes env (env.keyLength a)) m.recipients)
           (some a) [3])) := by
  constructor
  · intro hdka
    subst hdka
    cases hrs : m.recipients with
    | nil => rw [hrs] at hv; simp [verify_recipients] at hv
    | cons r0 tl =>
        rw [encrypt_dka_eq env m r0 tl hv hrs] at hrun
        simp only [Except.ok.injEq, Prod.mk.injEq] at hrun
        obtain ⟨-, hm2⟩ := hrun
        subst hm2
        exact ⟨r0, tl, rfl, rfl⟩
  · intro hkw
    cases hga : get_attr m 1 with
    | none =>
        rcases hkw with h | h
        · subst h
          unfold EncMessage.encrypt at hrun
          rw [hv, hga] at hrun
          simp at hrun
        · subst h
          unfold EncMessage.encrypt at hrun
          rw [hv, hga] at hrun
          simp at hrun
    | some a =>
        rw [encrypt_kw_eq env m v a hv hkw hga] at hrun
        simp only [Except.ok.injEq, Prod.mk.injEq] at hrun
        obtain ⟨-, hm2⟩ := hrun
        subst hm2
        exact ⟨a, rfl, by simp [fanout_snd]⟩

/-- Established-CEK identification for every successful non-DirectEncryption
decrypt: the stored key is the compute_cek of the chosen recipient in
decrypt mode. -/
theorem decrypt_ok_key (env : Env) (m : EncMessage) (r : Recipient) (v : RVariant)
    (pt : Bytes) (m2 : EncMessage)
    (hv : verify_recipients m.recipients = Except.ok v)
    (hne : v ≠ RVariant.DirectEncryption)
    (hrun : EncMessage.decrypt env m r = Except.ok (pt, m2)) :
    m2.key = some (env.computeCek r (get_attr m 1) CekMode.decryptMode) := by
  cases hmem : has_recipient r m.recipients with
  | false =>
      unfold EncMessage.decrypt at hrun
      rw [hmem] at hrun
      simp at hrun
  | true =>
      rw [decrypt_nonDE_eq env m r v hmem hv hne] at hrun
      cases ho : env.aeadOpen (env.computeCek r (get_attr m 1) CekMode.decryptMode)
          { m with key := some (env.computeCek r (get_attr m 1) CekMode.decryptMode) } with
      | error e => rw [ho] at hrun; simp at hrun
      | ok pt0 =>
          rw [ho] at hrun
          simp only [Except.ok.injEq, Prod.mk.injEq] at hrun
          obtain ⟨-, hm2⟩ := hrun
          subst hm2
          rfl

-- Every failure exit of encrypt carries the key value present at the raise
-- point, which is always the entry key: every raise happens before a key
-- assignment, and the seal of an established key cannot fail.
theorem encrypt_error_key (env : Env) (m : EncMessage) (e : PyErr)
    (m2 : EncMessage)
    (hrun : EncMessage.encrypt env m = Except.error (e, m2)) : m2.key = m.key := by
  cases hv : verify_recipients m.recipients with
  | error e0 =>
      unfold EncMessage.encrypt at hrun
      rw [hv] at hrun
      simp at hrun
      obtain ⟨-, hm2⟩ := hrun
      rw [← hm2]
  | ok v =>
      cases v with
      | DirectEncryption =>
          unfold EncMessage.encrypt at hrun
          rw [hv] at hrun
          cases hse : superEncrypt env m with
          | error e0 =>
              rw [hse] at hrun
              simp at hrun
              obtain ⟨-, hm2⟩ := hrun
              rw [← hm2]
          | ok ct0 => rw [hse] at hrun; simp at hrun
      | DirectKeyAgreement =>
          cases hrs : m.recipients with
          | nil => rw [hrs] at hv; simp [verify_recipients] at hv
          | cons r0 tl =>
              rw [encrypt_dka_eq env m r0 tl hv hrs] at hrun
              simp at hrun
      | KeyWrap =>
          cases hga : get_attr m 1 with
          | none =>
              unfold EncMessage.encrypt at hrun
              rw [hv, hga] at hrun
              simp at hrun
              obtain ⟨-, hm2⟩ := hrun
              rw [← hm2]
          | some a =>
              rw [encrypt_kw_eq env m RVariant.KeyWrap a hv (Or.inl rfl) hga] at hrun
              simp at hrun
      | KeyAgreementWithKeyWrap =>
          cases hga : get_attr m 1 with
          | none =>
              unfold EncMessage.encrypt at hrun
              rw [hv, hga] at hrun
              simp at hrun
              obtain ⟨-, hm2⟩ := hrun
              rw [← hm2]
          | some a =>
              rw [encrypt_kw_eq env m RVariant.KeyAgreementWithKeyWrap a hv
                (Or.inr rfl) hga] at hrun
              simp at hrun

-- Every failure exit of decrypt carries the key value present at the raise
-- point: the entry key when the raise happens before derivation, the
-- derived CEK when the AEAD open fails afterwards.
theorem decrypt_error_key (env : Env) (m : EncMessage) (r : Recipient)
    (e : PyErr) (m2 : EncMessage)
    (hrun : EncMessage.decrypt env m r = Except.error (e, m2)) :
    m2.key = m.key ∨
    m2.key = some (env.computeCek r (get_attr m 1) CekMode.decryptMode) := by
  cases hmem : has_recipient r m.recipients with
  | false =>
      unfold EncMessage.decrypt at hrun
      rw [hmem] at hrun
      simp at hrun
      obtain ⟨-, hm2⟩ := hrun
      rw [← hm2]
      exact Or.inl rfl
  | true =>
      cases hv : verify_recipients m.recipients with
      | error e0 =>
          unfold EncMessage.decrypt at hrun
          rw [hmem, hv] at hrun
          simp at hrun
          obtain ⟨-, hm2⟩ := hrun
          rw [← hm2]
          exact Or.inl rfl
      | ok v =>
          cases v with
          | DirectEncryption =>
              unfold EncMessage.decrypt at hrun
              rw [hmem, hv] at hrun
              cases hsd : superDecrypt env m with
              | error e0 =>
                  rw [hsd] at hrun
                  simp at hrun
                  obtain ⟨-, hm2⟩ := hrun
                  rw [← hm2]
                  exact Or.inl rfl
              | ok pt0 => rw [hsd] at hrun; simp at hrun
          | DirectKeyAgreement =>
              rw [decrypt_nonDE_eq env m r RVariant.DirectKeyAgreement hmem hv
                (by decide)] at hrun
              cases ho : env.aeadOpen (env.computeCek r (get_attr m 1) CekMode.decryptMode)
                  { m with key := some (env.computeCek r (get_attr m 1) CekMode.decryptMode) } with
              | error e0 =>
                  rw [ho] at hrun
                  simp at hrun
                  obtain ⟨-, hm2⟩ := hrun
                  rw [← hm2]
                  exact Or.inr rfl
              | ok pt0 => rw [ho] at hrun; simp at hrun
          | KeyWrap =>
              rw [decrypt_nonDE_eq env m r RVariant.KeyWrap hmem hv
                (by decide)] at hrun
              cases ho : env.aeadOpen (env.computeCek r (get_attr m 1) CekMode.decryptMode)
                  { m with key := some (env.computeCek r (get_attr m 1) CekMode.decryptMode) } with
              | error e0 =>
                  rw [ho] at hrun
                  simp at hrun
                  obtain ⟨-, hm2⟩ := hrun
                  rw [← hm2]
                  exact Or.inr rfl
              | ok pt0 => rw [ho] at hrun; simp at hrun
          | KeyAgreementWithKeyWrap =>
              rw [decrypt_nonDE_eq env m r RVariant.KeyAgreementWithKeyWrap hmem hv
                (by decide)] at hrun
              cases ho : env.aeadOpen (env.computeCek r (get_attr m 1) CekMode.decryptMode)
                  { m with key := some (env.computeCek r (get_attr m 1) CekMode.decryptMode) } with
              | error e0 =>
                  rw [ho] at hrun
                  simp at hrun
                  obtain ⟨-, hm2⟩ := hrun
                  rw [← hm2]
                  exact Or.inr rfl
              | ok pt0 => rw [ho] at hrun; simp at hrun

/-- Claim C5 (corrected): no exit path of encrypt or decrypt invalidates the
envelope key.  Every successful encrypt whose classification is not
DirectEncryption returns with the established CEK stored on the envelope
(the compute_cek of the head recipient under DirectKeyAgreement, the settled
fan-out key under KeyWrap and KeyAgreementWithKeyWrap); every successful
non-DirectEncryption decrypt returns with the derived CEK stored; and every
failure exit leaves whatever key value was present at the failure point: the
entry key for every encrypt failure and for decrypt failures before
derivation, the derived CEK when the AEAD open fails. -/
theorem claim_C5 :
    (∀ (env : Env) (m : EncMessage) (v : RVariant) (ct : Bytes) (m2 : EncMessage),
       verify_recipients m.recipients = Except.ok v →
       v ≠ RVariant.DirectEncryption →
       EncMessage.encrypt env m = Except.ok (ct, m2) →
       ((v = RVariant.DirectKeyAgreement →
           ∃ r0 tl, m.recipients = r0 :: tl ∧
             m2.key = some (env.computeCek r0 (get_attr m 1) CekMode.encryptMode)) ∧
        (v = RVariant.KeyWrap ∨ v = RVariant.KeyAgreementWithKeyWrap →
           ∃ a, get_attr m 1 = some a ∧
             m2.key = some (SymmetricKey.mk
               (settleFold (urandomBytes env (env.keyLength a)) m.recipients)
               (some a) [3])))) ∧
    (∀ (env : Env) (m : EncMessage) (r : Recipient) (v : RVariant)
       (pt : Bytes) (m2 : EncMessage),
       verify_recipients m.recipients = Except.ok v →
       v ≠ RVariant.DirectEncryption →
       EncMessage.decrypt env m r = Except.ok (pt, m2) →
       m2.key = some (env.computeCek r (get_attr m 1) CekMode.decryptMode)) ∧
    (∀ (env : Env) (m : EncMessage) (e : PyErr) (m2 : EncMessage),
       EncMessage.encrypt env m = Except.error (e, m2) → m2.key = m.key) ∧
    (∀ (env : Env) (m : EncMessage) (r : Recipient) (e : PyErr) (m2 : EncMessage),
       EncMessage.decrypt env m r = Except.error (e, m2) →
       m2.key = m.key ∨
       m2.key = some (env.computeCek r (get_attr m 1) CekMode.decryptMode)) :=
  ⟨fun env m v ct m2 hv hne hrun => encrypt_ok_key env m v ct m2 hv hne hrun,
   fun env m r v pt m2 hv hne hrun => decrypt_ok_key env m r v pt m2 hv hne hrun,
   fun env m e m2 hrun => encrypt_error_key env m e m2 hrun,
   fun env m r e m2 hrun => decrypt_error_key env m r e m2 hrun⟩

/-- Witness for the corrected claim C5: a successful KeyWrap encrypt storing
the settled CEK, a successful KeyWrap decrypt storing the derived CEK, a
failed encrypt (empty classification) leaving the entry key, and a failed
decrypt (authentication failure) leaving the derived CEK. -/
theorem claim_C5_witness :
    c5state.key = some (SymmetricKey.mk
      (settleFold (urandomBytes testEnv (Env.keyLength testEnv 1)) c5msg.recipients)
      (some 1) [3]) ∧
    c5dstate.key = some (Env.computeCek testEnv rKW1 (get_attr c5dmsg 1)
      CekMode.decryptMode) ∧
    c5emsg.key = c5emsg.key ∧
    (c5dstate.key = c5dmsg.key ∨
     c5dstate.key = some (Env.computeCek testEnvF rKW1 (get_attr c5dmsg 1)
       CekMode.decryptMode)) := by
  refine ⟨?_, ?_, ?_, ?_⟩
  · have h := (claim_C5.1 testEnv c5msg RVariant.KeyWrap c5ct c5state rfl
      (by decide) rfl).2 (Or.inl rfl)
    obtain ⟨a, hga, hkey⟩ := h
    have ha : (some a : Option Int) = some 1 := hga.symm.trans rfl
    injection ha with ha
    subst ha
    exact hkey
  · exact claim_C5.2.1 testEnv c5dmsg rKW1 RVariant.KeyWrap [20] c5dstate rfl
      (by decide) rfl
  · exact claim_C5.2.2.1 testEnv c5emsg PyErr.coseUnsupportedRecipientClass c5emsg rfl
  · exact claim_C5.2.2.2 testEnvF c5dmsg rKW1 PyErr.coseAuthFailure c5dstate rfl

/-- Counterexample to claim C7 as stated: the external factory fails with a
ValueError while reconstructing a present recipients array, yet decode
returns successfully with an empty recipient list, so the error is masked
rather than propagated. -/
theorem claim_C7_counterexample :
    Env.createRecipient testEnv (Wire.other 6) = Except.error PyErr.valueError ∧
    from_cose_obj testEnv
        [Wire.hmap [], Wire.hmap [], Wire.bstr [], Wire.arr [Wire.other 6]] =
      Except.ok (EncMessage.mk [] [] [] [] none []) :=
  ⟨rfl, rfl⟩

/-- Claim C7 (corrected): while reconstructing a present recipients array,
decode propagates a factory error of any kind other than ValueError and
IndexError, but a ValueError or IndexError raised by the reconstruction is
swallowed and the recipient list set to empty, in addition to the intended
recipients-array-absent tolerance. -/
theorem claim_C7 (env : Env) (ph uh : HdrMap) (pl : Bytes) (ws rest2 : List Wire)
    (e : PyErr) (h : mapCreate env ws = Except.error e) :
    (e ≠ PyErr.valueError → e ≠ PyErr.indexError →
       from_cose_obj env
           (Wire.hmap ph :: Wire.hmap uh :: Wire.bstr pl :: Wire.arr ws :: rest2) =
         Except.error e) ∧
    (e = PyErr.valueError ∨ e = PyErr.indexError →
       from_cose_obj env
           (Wire.hmap ph :: Wire.hmap uh :: Wire.bstr pl :: Wire.arr ws :: rest2) =
         Except.ok (EncMessage.mk ph uh pl [] none [])) := by
  constructor
  · intro h1 h2
    simp [from_cose_obj, h, h1, h2]
  · intro h1
    rcases h1 with h1 | h1 <;> subst h1 <;> simp [from_cose_obj, h]

/-- Witness for the corrected claim C7: a concrete masked ValueError and a
concrete propagated error of another kind, from the same wire structure. -/
theorem claim_C7_witness :
    from_cose_obj testEnv
        [Wire.hmap [], Wire.hmap [], Wire.bstr [], Wire.arr [Wire.other 5]] =
      Except.ok (EncMessage.mk [] [] [] [] none []) ∧
    from_cose_obj testEnvP
        [Wire.hmap [], Wire.hmap [], Wire.bstr [], Wire.arr [Wire.other 5]] =
      Except.error (PyErr.otherError 1) :=
  ⟨(claim_C7 testEnv [] [] [] [Wire.other 5] [] PyErr.valueError rfl).2 (Or.inl rfl),
   (claim_C7 testEnvP [] [] [] [Wire.other 5] [] (PyErr.otherError 1) rfl).1
     (by decide) (by decide)⟩

/-- Claim C8: the array built by encode has three elements when the envelope
has no recipients and four when it has some, the fourth being the ordered
sequence of the encodings of the recipients parameterized by the negotiated
algorithm of the envelope; decoding the produced array yields a message with
zero recipients in the first case, and with as many recipients as the
envelope in the second, provided the factory reconstructs each encoded
recipient. -/
theorem claim_C8 (env : Env) (m : EncMessage) (enc : Bool) (l : List Wire)
    (m2 : EncMessage) (h : encodeBody env m enc = Except.ok (l, m2)) :
    (m2.recipients = [] → l.length = 3 ∧
       (∃ dm, from_cose_obj env l = Except.ok dm ∧ dm.recipients.length = 0)) ∧
    (m2.recipients ≠ [] → l.length = 4 ∧
       l[3]? = some (Wire.arr (m2.recipients.map
         (fun r => env.encodeRecipient r (get_attr m2 1)))) ∧
       (∀ rs, mapCreate env (m2.recipients.map
           (fun r => env.encodeRecipient r (get_attr m2 1))) = Except.ok rs →
          ∃ dm, from_cose_obj env l = Except.ok dm ∧
            dm.recipients.length = m2.recipients.length)) := by
  unfold encodeBody at h
  cases hx : (if enc then EncMessage.encrypt env m else Except.ok (m.payload, m)) with
  | error e => rw [hx] at h; simp at h
  | ok p =>
      obtain ⟨ct, m1⟩ := p
      rw [hx] at h
      replace h : (if m1.recipients.length ≠ 0 then
            Except.ok ([Wire.hmap m1.phdr, Wire.hmap m1.uhdr, Wire.bstr ct] ++
              [Wire.arr (m1.recipients.map
                (fun r => env.encodeRecipient r (get_attr m1 1)))], m1)
          else
            Except.ok ([Wire.hmap m1.phdr, Wire.hmap m1.uhdr, Wire.bstr ct], m1)) =
          Except.ok (l, m2) := h
      by_cases hr : m1.recipients = []
      · rw [if_neg (by simp [hr])] at h
        simp only [Except.ok.injEq, Prod.mk.injEq] at h
        obtain ⟨hl, hm⟩ := h
        subst hm
        subst hl
        constructor
        · intro _
          exact ⟨rfl, ⟨EncMessage.mk m1.phdr m1.uhdr ct [] none [], rfl, rfl⟩⟩
        · intro hne
          exact absurd hr hne
      · rw [if_pos (by simp [hr])] at h
        simp only [Except.ok.injEq, Prod.mk.injEq] at h
        obtain ⟨hl, hm⟩ := h
        subst hm
        subst hl
        constructor
        · intro h0
          exact absurd h0 hr
        · intro _
          refine ⟨rfl, rfl, ?_⟩
          intro rs hrs
          refine ⟨EncMessage.mk m1.phdr m1.uhdr ct [] none rs, ?_, ?_⟩
          · simp only [List.cons_append, List.nil_append, from_cose_obj, hrs]
          · simp only [mapCreate_length env _ rs hrs, List.length_map]

/-- Witness for claim C8 at a concrete one-recipient envelope encoded in raw
mode. -/
theorem claim_C8_witness :
    c8list.length = 4 ∧
    (from_cose_obj testEnv c8list).map (fun dm => dm.recipients.length) =
      Except.ok 1 := by
  have h := (claim_C8 testEnv c8msg false c8list c8msg rfl).2 (by simp [c8msg])
  refine ⟨h.1, ?_⟩
  obtain ⟨dm, hdm, hlen⟩ :=
    h.2.2 [Recipient.mk 0 RVariant.KeyWrap [4, 4] none] rfl
  rw [hdm]
  simp [Except.map, hlen, c8msg]

/-- Claim C9: for an envelope classified DirectKeyAgreement, encrypt hands
the negotiated target algorithm to the compute_cek function of the first
recipient in encrypt mode, stores its result as the envelope CEK, leaves
the recipient list and the other message fields untouched, and seals with
exactly that key; no other recipient takes part in key establishment. -/
theorem claim_C9 (env : Env) (m : EncMessage) (ct : Bytes) (m2 : EncMessage)
    (r0 : Recipient)
    (hv : verify_recipients m.recipients = Except.ok RVariant.DirectKeyAgreement)
    (hr0 : m.recipients.head? = some r0)
    (hrun : EncMessage.encrypt env m = Except.ok (ct, m2)) :
    m2.key = some (env.computeCek r0 (get_attr m 1) CekMode.encryptMode) ∧
    m2.recipients = m.recipients ∧
    m2.phdr = m.phdr ∧ m2.uhdr = m.uhdr ∧ m2.payload = m.payload ∧
    ct = env.aeadSeal (env.computeCek r0 (get_attr m 1) CekMode.encryptMode) m2 := by
  cases hrs : m.recipients with
  | nil => rw [hrs] at hr0; simp at hr0
  | cons x tl =>
      rw [hrs] at hr0
      simp only [List.head?_cons, Option.some.injEq] at hr0
      subst hr0
      rw [encrypt_dka_eq env m x tl hv hrs] at hrun
      simp only [Except.ok.injEq, Prod.mk.injEq] at hrun
      obtain ⟨hct, hm2⟩ := hrun
      subst hct
      subst hm2
      exact ⟨rfl, hrs, rfl, rfl, rfl, rfl⟩

/-- Witness for claim C9 at a concrete single-recipient DirectKeyAgreement
envelope. -/
theorem claim_C9_witness :
    c9state.key = some (Env.computeCek testEnv rDKA (get_attr c9msg 1)
      CekMode.encryptMode) ∧
    c9state.recipients = c9msg.recipients :=
  ⟨(claim_C9 testEnv c9msg c9ct c9state rDKA rfl rfl rfl).1,
   (claim_C9 testEnv c9msg c9ct c9state rDKA rfl rfl rfl).2.1⟩
